import Mathlib

/-!
Shallow embedding of the pygame-platformer core (colliders, gamepad deadzone,
input action system, entity engine) and proofs of the specification claims.
Python floats are modelled as exact rationals; all arithmetic in the embedded
code is comparison and linear arithmetic, which the source performs exactly
apart from rounding.
-/

/-! ## RectCollider (src/engine/colliders.py) -/

structure Rect where
  x : ℚ
  y : ℚ
  width : ℚ
  height : ℚ
deriving DecidableEq, Repr

/-- The exclusion-based intersection test from `RectCollider.colliding`
(lines 30-33): `not (self.x > other.x + other.width or ...)`. -/
def intersecting (a b : Rect) : Bool :=
  !(decide (a.x > b.x + b.width) || decide (a.x + a.width < b.x) ||
    decide (a.y > b.y + b.height) || decide (a.y + a.height < b.y))

/-- `RectCollider.colliding` with a translation vector supplied: returns the
boolean result paired with the value the vector holds after the call. -/
def colliding (a b : Rect) : Bool × (ℚ × ℚ) :=
  if !(intersecting a b) then (false, (0, 0))
  else
    let self_cx := a.x + a.width / 2
    let self_cy := a.y + a.height / 2
    let other_cx := b.x + b.width / 2
    let other_cy := b.y + b.height / 2
    let dx := other_cx - self_cx
    let dy := other_cy - self_cy
    let x_range := a.width / 2 + b.width / 2
    let y_range := a.height / 2 + b.height / 2
    let mx := x_range - |dx|
    let my := y_range - |dy|
    if mx ≤ my then
      if dx < 0 then (true, (mx, 0)) else (true, (-mx, 0))
    else
      if dy < 0 then (true, (0, my)) else (true, (0, -my))

/-- Translating a collider by a vector (the caller-side
`self.x += trans_vec.x; self.y += trans_vec.y`). -/
def Rect.translate (a : Rect) (v : ℚ × ℚ) : Rect :=
  { a with x := a.x + v.1, y := a.y + v.2 }

/-- Strict (open-interior) overlap of two axis-aligned boxes.  This is the
spec-side notion used to amend the push-out claim: the source's
`intersecting` additionally counts exactly-touching edges as overlap. -/
def strictOverlap (a b : Rect) : Prop :=
  a.x < b.x + b.width ∧ b.x < a.x + a.width ∧
  a.y < b.y + b.height ∧ b.y < a.y + a.height

/-! ## Deadzone (src/engine/gamepad.py, `_apply_deadzone`) -/

/-- `_apply_deadzone(value, inner, outer)` from gamepad.py lines 70-92. -/
def apply_deadzone (value inner outer : ℚ) : ℚ :=
  let outer2 := 1 - outer
  let magnitude := |value|
  let sign : ℚ := if value ≥ 0 then 1 else -1
  if magnitude < inner then 0
  else if magnitude > outer2 then sign * 1
  else sign * ((magnitude - inner) / (outer2 - inner))

/-- Static default `Gamepad.deadzone_inner = 0.1`. -/
def deadzone_inner : ℚ := 1 / 10

/-- Static default `Gamepad.deadzone_outer = 0.05`. -/
def deadzone_outer : ℚ := 1 / 20

/-! ## Gamepad (src/engine/gamepad.py) -/

/-- `GpAxis` enumeration. -/
inductive GpAxis where
  | leftStickX
  | leftStickY
  | rightStickX
  | rightStickY
  | leftTrigger
  | rightTrigger
  | dpadX
  | dpadY
deriving DecidableEq, Repr

/-- Iteration order of `GpAxis` (declaration order of the IntEnum). -/
def allAxes : List GpAxis :=
  [.leftStickX, .leftStickY, .rightStickX, .rightStickY,
   .leftTrigger, .rightTrigger, .dpadX, .dpadY]

/-- `GpButton` enumeration. -/
inductive GpButton where
  | a
  | b
  | x
  | y
  | leftBumper
  | rightBumper
  | back
  | start
  | leftStickClick
  | rightStickClick
  | guide
  | leftTrigger
  | rightTrigger
  | leftTriggerFullPull
  | rightTriggerFullPull
deriving DecidableEq, Repr

/-- Iteration order of `GpButton` (declaration order of the IntEnum). -/
def allButtons : List GpButton :=
  [.a, .b, .x, .y, .leftBumper, .rightBumper, .back, .start,
   .leftStickClick, .rightStickClick, .guide,
   .leftTrigger, .rightTrigger, .leftTriggerFullPull, .rightTriggerFullPull]

/-- Hardware-side state of a `Gamepad` instance: whether a joystick is
currently claimed (`_pg_joystick != None`), the joystick's raw button table
(`get_button`), raw axis table (`get_axis`) and hat (`get_hat(0)`). -/
structure GamepadState where
  connected : Bool
  rawButton : GpButton → Bool
  rawAxis : GpAxis → ℚ
  hat : ℚ × ℚ

/-- `Gamepad.axis_value(axis, raw_value)` from gamepad.py lines 190-219. -/
def axis_value (gp : GamepadState) (axis : GpAxis) (raw_value : Bool) : ℚ :=
  if !gp.connected then 0
  else if axis = GpAxis.dpadX then gp.hat.1
  else if axis = GpAxis.dpadY then gp.hat.2 * (-1)
  else if axis = GpAxis.leftTrigger || axis = GpAxis.rightTrigger then
    gp.rawAxis axis / 2 + 1/2
  else if raw_value then gp.rawAxis axis
  else apply_deadzone (gp.rawAxis axis) deadzone_inner deadzone_outer

/-- `Gamepad.button_down(button)` from gamepad.py lines 169-188. -/
def button_down (gp : GamepadState) (button : GpButton) : Bool :=
  if !gp.connected then false
  else if button = GpButton.leftTrigger then
    decide (axis_value gp GpAxis.leftTrigger false ≥ 1/4)
  else if button = GpButton.leftTriggerFullPull then
    decide (axis_value gp GpAxis.leftTrigger false ≥ 19/20)
  else if button = GpButton.rightTrigger then
    decide (axis_value gp GpAxis.rightTrigger false ≥ 1/4)
  else if button = GpButton.rightTriggerFullPull then
    decide (axis_value gp GpAxis.rightTrigger false ≥ 19/20)
  else gp.rawButton button

/-- Modelled from the spec: `Gamepad.button_pressed` is called from
input.py but is not defined in the source `Gamepad` class.  The spec's
digital-button contract (raw pressed state when connected, else false;
soft/full trigger-pull thresholds) is exactly `button_down`. -/
def button_pressed (gp : GamepadState) (button : GpButton) : Bool :=
  button_down gp button

/-- Modelled from the spec: `Gamepad.pressed_buttons` is called from
input.py but is not defined in the source `Gamepad` class.  Modelled as
the list of gamepad buttons whose pressed state is currently true. -/
def pressed_buttons (gp : GamepadState) : List GpButton :=
  allButtons.filter (fun btn => button_pressed gp btn)

/-! ## Input action system (src/engine/input.py) -/

/-- The two action modes. -/
inductive Mode where
  | hold
  | press
deriving DecidableEq, Repr

/-- The two input sources of `Input._last_input_source`. -/
inductive Source where
  | keyboard
  | gamepad
deriving DecidableEq, Repr

/-- `Input._KEY_ALIASES`. -/
def KEY_ALIASES : List (String × String) :=
  [("up arrow", "up"), ("down arrow", "down"), ("left arrow", "left"),
   ("right arrow", "right"), ("shift", "left shift"), ("ctrl", "left ctrl"),
   ("alt", "left alt"), ("caps", "caps lock"), ("enter", "return"),
   ("spacebar", "space")]

/-- `Input._MOUSE_BUTTONS`. -/
def MOUSE_BUTTONS : List (String × Nat) :=
  [("left mouse", 0), ("left click", 0), ("mouse 1", 0),
   ("middle mouse", 1), ("middle click", 1), ("mouse 3", 1),
   ("right mouse", 2), ("right click", 2), ("mouse 2", 2)]

/-- `Input._GAMEPAD_BUTTONS`. -/
def GAMEPAD_BUTTONS : List (String × GpButton) :=
  [("a", .a), ("b", .b), ("x", .x), ("y", .y),
   ("left bumper", .leftBumper), ("right bumper", .rightBumper),
   ("back", .back), ("start", .start),
   ("left stick click", .leftStickClick), ("right stick click", .rightStickClick),
   ("guide", .guide), ("left trigger", .leftTrigger), ("right trigger", .rightTrigger),
   ("left trigger full pull", .leftTriggerFullPull),
   ("right trigger full pull", .rightTriggerFullPull)]

/-- Python `str.lower()` on the ASCII binding names: lowercase every
character. -/
def pyLower (s : String) : String := String.mk (s.data.map Char.toLower)

/-- Lookup in a string-keyed table (Python `dict[key]` after a `key in dict`
membership test). -/
def tableGet {α : Type} : List (String × α) → String → Option α
  | [], _ => none
  | (k, v) :: rest, s => if k = s then some v else tableGet rest s

/-- An `Input._Action`: resolved key codes, mouse codes and gamepad codes
plus the mode flags and the per-frame mutable state. -/
structure InputAction where
  key_codes : List Nat
  mouse_codes : List Nat
  gamepad_codes : List GpButton
  mode : Mode
  chord : Bool
  active : Bool
  was_active : Bool
  buffer_remaining : ℚ
deriving DecidableEq, Repr

/-- Keyboard state: `pygame.key.get_pressed()`, a table of booleans indexed
by scancode.  Out-of-range indexes never occur for recognized keys. -/
def keyState (keys : List Bool) (code : Nat) : Bool := keys.getD code false

/-- Mouse state: `pygame.mouse.get_pressed(3)`, three booleans. -/
def mouseState (mouse : List Bool) (code : Nat) : Bool := mouse.getD code false

/-- The binding test of `Input._Action.update` (input.py lines 121-141):
which bindings are consulted depends on `Input._last_input_source`. -/
def actionPressed (src : Source) (gp : GamepadState) (keys mouse : List Bool)
    (a : InputAction) : Bool :=
  if a.chord then
    match src with
    | .gamepad => a.gamepad_codes.all (fun btn => button_pressed gp btn)
    | .keyboard =>
        a.key_codes.all (fun k => keyState keys k) &&
        a.mouse_codes.all (fun m => mouseState mouse m)
  else
    match src with
    | .gamepad => a.gamepad_codes.any (fun btn => button_pressed gp btn)
    | .keyboard =>
        a.key_codes.any (fun k => keyState keys k) ||
        a.mouse_codes.any (fun m => mouseState mouse m)

/-- The mode semantics of `Input._Action.update` (input.py lines 143-158),
given the computed pressed state. -/
def applyMode (buffer_duration dt : ℚ) (keys_pressed : Bool) (a : InputAction) :
    InputAction :=
  match a.mode with
  | .hold => { a with active := keys_pressed }
  | .press =>
      if keys_pressed then
        if a.buffer_remaining > 0 then
          { a with buffer_remaining := a.buffer_remaining - dt, active := true }
        else if a.was_active then
          { a with active := false }
        else
          { a with active := true, was_active := true,
                   buffer_remaining := buffer_duration }
      else
        { a with active := false, was_active := false }

/-- `Input._Action.update` in full. -/
def actionUpdate (src : Source) (gp : GamepadState) (keys mouse : List Bool)
    (buffer_duration dt : ℚ) (a : InputAction) : InputAction :=
  applyMode buffer_duration dt (actionPressed src gp keys mouse a) a

/-- The input-source arbitration of `Input.update` (input.py lines 222-230). -/
def computeSource (gp : GamepadState) (keys mouse : List Bool)
    (prev : Source) : Source :=
  if !gp.connected then .keyboard
  else if (pressed_buttons gp).length > 0 then .gamepad
  else if allAxes.any (fun a => !decide (axis_value gp a false = 0)) then .gamepad
  else if keys.any (fun k => k) || mouse.any (fun m => m) then .keyboard
  else prev

/-- Process-wide `Input` state: the action registry (a dict, i.e. an
insertion-ordered association list), the buffer duration and the last input
source. -/
structure InputState where
  actions : List (String × InputAction)
  buffer_duration : ℚ
  last_input_source : Source

/-- `Input.update(dt)`: recompute the dominant source, then update every
action with the per-frame hardware state. -/
def inputUpdate (gp : GamepadState) (keys mouse : List Bool) (dt : ℚ)
    (st : InputState) : InputState :=
  let src := computeSource gp keys mouse st.last_input_source
  { st with
    last_input_source := src,
    actions := st.actions.map
      (fun p => (p.1, actionUpdate src gp keys mouse st.buffer_duration dt p.2)) }

/-- The key/mouse binding resolution loop of `Input._Action.__init__`
(input.py lines 89-105).  `kc` abstracts `pygame.key.key_code`: `none` means
pygame raises `ValueError("unknown key name")`, which the source re-throws
with the descriptive message.  Returns the resolved key codes and mouse
codes, or the first error message. -/
def resolveKeys (kc : String → Option Nat) (name : String) :
    List String → Except String (List Nat × List Nat)
  | [] => .ok ([], [])
  | k :: rest =>
      let key := pyLower k
      match tableGet MOUSE_BUTTONS key with
      | some m =>
          match resolveKeys kc name rest with
          | .ok (ks, ms) => .ok (ks, m :: ms)
          | .error e => .error e
      | none =>
          let key2 :=
            match tableGet KEY_ALIASES key with
            | some al => al
            | none => key
          match kc key2 with
          | some code =>
              match resolveKeys kc name rest with
              | .ok (ks, ms) => .ok (code :: ks, ms)
              | .error e => .error e
          | none =>
              .error ("Invalid key \"" ++ key2 ++ "\" bound to action \"" ++
                      name ++ "\".")

/-- The gamepad-button resolution loop of `Input._Action.__init__`
(input.py lines 108-115). -/
def resolveButtons (name : String) :
    List String → Except String (List GpButton)
  | [] => .ok []
  | b :: rest =>
      let button := pyLower b
      match tableGet GAMEPAD_BUTTONS button with
      | some code =>
          match resolveButtons name rest with
          | .ok gs => .ok (code :: gs)
          | .error e => .error e
      | none =>
          .error ("Invalid gamepad button \"" ++ button ++
                  "\" bound to action \"" ++ name ++ "\".")

/-- `Input._Action.__init__`: resolve all bindings or raise. -/
def mkAction (kc : String → Option Nat) (name : String)
    (keys buttons : List String) (mode : Mode) (chord : Bool) :
    Except String InputAction :=
  match resolveKeys kc name keys with
  | .error e => .error e
  | .ok (kcs, mcs) =>
      match resolveButtons name buttons with
      | .error e => .error e
      | .ok gcs =>
          .ok { key_codes := kcs, mouse_codes := mcs, gamepad_codes := gcs,
                mode := mode, chord := chord, active := false,
                was_active := false, buffer_remaining := 0 }

/-- `Input.add_action` (input.py lines 170-206) as a transformer of the
process-wide registry.  The second component is the raised error message,
if any; the first is the registry after the call. -/
def add_action (kc : String → Option Nat) (st : InputState) (name : String)
    (keys buttons : List String) (mode : Mode) (chord : Bool) :
    InputState × Option String :=
  if keys.length = 0 && buttons.length = 0 then
    (st, some ("The action \"" ++ name ++ "\" has no keyboard keys, mouse " ++
               "buttons, or gamepad buttons bound to it."))
  else if st.actions.any (fun p => p.1 = name) then
    (st, some ("The action \"" ++ name ++ "\" already exists."))
  else
    match mkAction kc name keys buttons mode chord with
    | .error e => (st, some e)
    | .ok a => ({ st with actions := st.actions ++ [(name, a)] }, none)

/-- The alias normalization step applied to a lowercased key name. -/
def aliased (key : String) : String :=
  match tableGet KEY_ALIASES key with
  | some al => al
  | none => key

/-- A key/mouse binding name is recognized when, after lowercasing, it is a
mouse-button name, or its alias-normalized form is a known pygame key. -/
def recognizedKey (kc : String → Option Nat) (k : String) : Prop :=
  (tableGet MOUSE_BUTTONS (pyLower k)).isSome = true ∨
  (kc (aliased (pyLower k))).isSome = true

/-- A gamepad-button binding name is recognized when its lowercased form is
in the gamepad-button table. -/
def recognizedButton (b : String) : Prop :=
  (tableGet GAMEPAD_BUTTONS (pyLower b)).isSome = true

instance (kc : String → Option Nat) (k : String) :
    Decidable (recognizedKey kc k) := by
  unfold recognizedKey
  infer_instance

instance (b : String) : Decidable (recognizedButton b) := by
  unfold recognizedButton
  infer_instance

/-! ## Entity engine (src/engine/engine.py)

Entities are identified by natural numbers.  Their immutable attributes
(display layer, tags, whether they use raw delta time) are parameters
`layerOf` and `tagsOf`; the mutable `markForRemove` flag lives in the
engine state so that the flat list and the layer buckets observe the same
flag, as they do through shared references in the source. -/

structure EngState where
  entities : List Nat
  display_layers : List (ℚ × List Nat)
  layer_indexes : List ℚ
  marked : Nat → Bool

/-- `Engine` statics before any entity is added. -/
def engineInitState : EngState :=
  { entities := [], display_layers := [], layer_indexes := [],
    marked := fun _ => false }

/-- Python `dict` read: the bucket stored under a layer key (`[]` when the
key is absent; the source only reads keys it knows to be present). -/
def assocGet : List (ℚ × List Nat) → ℚ → List Nat
  | [], _ => []
  | (k, v) :: rest, i => if k = i then v else assocGet rest i

/-- Python `dict` write: replace the entry in place, or append a new key in
insertion order. -/
def assocSet : List (ℚ × List Nat) → ℚ → List Nat → List (ℚ × List Nat)
  | [], i, v => [(i, v)]
  | (k, w) :: rest, i, v =>
      if k = i then (i, v) :: rest else (k, w) :: assocSet rest i v

/-- `Engine.add_entity` (engine.py lines 104-135). -/
def add_entity (layerOf : Nat → ℚ) (st : EngState) (e : Nat) : EngState :=
  let entities := st.entities ++ [e]
  if layerOf e ∈ st.layer_indexes then
    { st with entities := entities,
              display_layers :=
                assocSet st.display_layers (layerOf e)
                  (assocGet st.display_layers (layerOf e) ++ [e]) }
  else
    { st with entities := entities,
              display_layers := st.display_layers ++ [(layerOf e, [e])],
              layer_indexes :=
                List.insertionSort (· ≤ ·) (st.layer_indexes ++ [layerOf e]) }

/-- The bucket-filtering loop of `Engine.remove_if` (engine.py lines
194-195): `for i in Engine._layer_indexes: Engine._display_layers[i] = ...`. -/
def filterBuckets (pred : Nat → Bool) (idxs : List ℚ)
    (m : List (ℚ × List Nat)) : List (ℚ × List Nat) :=
  idxs.foldl
    (fun m i => assocSet m i ((assocGet m i).filter (fun e => !pred e))) m

/-- `Engine.remove_if` (engine.py lines 172-195).  The second component is
the list of entities whose `on_remove` hook was invoked, in flat-list
order.  NOTE: the source accepts a `silent` argument but never reads it;
the hooks run unconditionally, and the model reproduces that. -/
def remove_if (pred : Nat → Bool) (silent : Bool) (st : EngState) :
    EngState × List Nat :=
  let buffer := st.entities.filter (fun e => !pred e)
  let trace := st.entities.filter pred
  ({ st with entities := buffer,
             display_layers :=
               filterBuckets pred st.layer_indexes st.display_layers },
   trace)

/-- `Engine.remove_all` (engine.py lines 197-214). -/
def remove_all (silent : Bool) (st : EngState) : EngState × List Nat :=
  let r := remove_if (fun _ => true) silent st
  ({ r.1 with display_layers := [], layer_indexes := [] }, r.2)

/-- `Engine.remove_tagged` (engine.py lines 216-228). -/
def remove_tagged (tagsOf : Nat → List Nat) (tag : Nat) (silent : Bool)
    (st : EngState) : EngState × List Nat :=
  remove_if (fun e => (tagsOf e).contains tag) silent st

/-- Marking `markForRemove := True` on a set of entities. -/
def markSet (marked : Nat → Bool) (ids : List Nat) : Nat → Bool :=
  fun e => marked e || ids.contains e

/-- The dispatch loop of `Engine.update` (engine.py lines 148-154).  Each
dispatched entity may set the removal flag of any entities (`effect`);
entities already flagged when reached are skipped.  Returns the flag state
after the sweep and the list of entities dispatched, in order. -/
def sweep (effect : Nat → List Nat) :
    List Nat → (Nat → Bool) → (Nat → Bool) × List Nat
  | [], marked => (marked, [])
  | e :: rest, marked =>
      if marked e then sweep effect rest marked
      else
        let r := sweep effect rest (markSet marked (effect e))
        (r.1, e :: r.2)

structure UpdateResult where
  st : EngState
  updated : List Nat
  removed : List Nat

/-- `Engine.update` (engine.py lines 137-157): dispatch the sweep, then
purge with `remove_if(lambda e: e.markForRemove)` (hooks not silenced). -/
def engine_update (effect : Nat → List Nat) (st : EngState) : UpdateResult :=
  let sw := sweep effect st.entities st.marked
  let st1 : EngState := { st with marked := sw.1 }
  let pr := remove_if (fun e => sw.1 e) false st1
  { st := pr.1, updated := sw.2, removed := pr.2 }

/-- The dispatch order of `Engine.render` (engine.py lines 159-170): every
bucket in layer-index order, each bucket in insertion order. -/
def render_dispatch (st : EngState) : List Nat :=
  (st.layer_indexes.map (fun i => assocGet st.display_layers i)).flatten

/-- Iterated frames: fold `Engine.update` over a list of per-frame entity
behaviours. -/
def frames (effs : List (Nat → List Nat)) (st : EngState) : EngState :=
  effs.foldl (fun s f => (engine_update f s).st) st

/-- The bookkeeping invariant of claim C10: layer indexes sorted ascending
and duplicate-free, matching the bucket keys exactly, and every entity of
the flat list present in the bucket of its display layer. -/
def EngInv (layerOf : Nat → ℚ) (st : EngState) : Prop :=
  st.layer_indexes.Sorted (· ≤ ·) ∧
  st.layer_indexes.Nodup ∧
  (st.display_layers.map Prod.fst).Nodup ∧
  (∀ k ∈ st.display_layers.map Prod.fst, k ∈ st.layer_indexes) ∧
  (∀ k ∈ st.layer_indexes, k ∈ st.display_layers.map Prod.fst) ∧
  (∀ e ∈ st.entities, e ∈ assocGet st.display_layers (layerOf e))

instance (layerOf : Nat → ℚ) (st : EngState) : Decidable (EngInv layerOf st) := by
  unfold EngInv
  infer_instance

/-! ## Concrete states used by the witnesses -/

/-- A press-mode action freshly bound to scancode 4 (`"a"`). -/
def pressAction0 : InputAction :=
  { key_codes := [4], mouse_codes := [], gamepad_codes := [],
    mode := .press, chord := false, active := false, was_active := false,
    buffer_remaining := 0 }

/-- A disconnected gamepad (a fresh `Gamepad()` instance). -/
def gpOff : GamepadState :=
  { connected := false, rawButton := fun _ => false,
    rawAxis := fun _ => 0, hat := (0, 0) }

/-- A connected gamepad holding the A button, sticks centred. -/
def gpBtn : GamepadState :=
  { connected := true, rawButton := fun b => decide (b = GpButton.a),
    rawAxis := fun _ => 0, hat := (0, 0) }

/-- An empty action registry. -/
def istEmpty : InputState :=
  { actions := [], buffer_duration := 0, last_input_source := .keyboard }

/-- A key-code table recognizing only the names used by the witnesses
(the relevant fragment of `pygame.key.key_code`). -/
def kc0 : String → Option Nat := fun s =>
  if s = "a" then some 4
  else if s = "return" then some 13
  else if s = "space" then some 44
  else none

/-- Entity display layers used by the engine witnesses. -/
def L0 : Nat → ℚ := fun e => if e = 0 then 0 else if e = 1 then -5 else 5

/-- Entity tags used by the engine witnesses: entity 1 carries tag 7. -/
def T0 : Nat → List Nat := fun e => if e = 1 then [7] else []

/-- Engine state with entities 0, 1, 2 on layers 0, −5, 5. -/
def st3 : EngState :=
  add_entity L0 (add_entity L0 (add_entity L0 engineInitState 0) 1) 2

/-- Engine state with a single entity 0 on layer 0. -/
def st1 : EngState := add_entity L0 engineInitState 0

/-- A frame behaviour in which entity 0 marks entity 1 for removal. -/
def eff0 : Nat → List Nat := fun x => if x = 0 then [1] else []

/-! ## Helper lemmas -/

lemma intersecting_eq_false_iff (a b : Rect) :
    intersecting a b = false ↔
      (b.x + b.width < a.x ∨ a.x + a.width < b.x ∨
       b.y + b.height < a.y ∨ a.y + a.height < b.y) := by
  unfold intersecting
  simp only [Bool.not_eq_false', Bool.or_eq_true, decide_eq_true_eq, gt_iff_lt,
    or_assoc]

lemma intersecting_eq_true_iff (a b : Rect) :
    intersecting a b = true ↔
      (a.x ≤ b.x + b.width ∧ b.x ≤ a.x + a.width ∧
       a.y ≤ b.y + b.height ∧ b.y ≤ a.y + a.height) := by
  simp [intersecting, not_lt, and_assoc]

lemma colliding_fst (a b : Rect) : (colliding a b).1 = intersecting a b := by
  unfold colliding
  cases h : intersecting a b
  · simp [h]
  · simp only [h, Bool.not_true, Bool.false_eq_true, if_false]
    split_ifs <;> rfl

lemma colliding_snd_of_not_intersecting (a b : Rect)
    (h : intersecting a b = false) : (colliding a b).2 = (0, 0) := by
  unfold colliding
  simp [h]

/-! ## Claim C5 -/

/-- C5: `RectCollider.colliding` returns false exactly when the two boxes
are strictly separated on some axis (one box's minimum coordinate strictly
greater than the other's maximum there); exactly-touching edges count as
intersecting; and whenever the test returns false with a translation
vector supplied, the vector is set to zero. -/
theorem C5_boundary_policy (a b : Rect) :
    ((colliding a b).1 = false ↔
      (b.x + b.width < a.x ∨ a.x + a.width < b.x ∨
       b.y + b.height < a.y ∨ a.y + a.height < b.y)) ∧
    (0 ≤ a.width → 0 ≤ b.width → a.x + a.width = b.x →
      a.y ≤ b.y + b.height → b.y ≤ a.y + a.height →
      (colliding a b).1 = true) ∧
    ((colliding a b).1 = false → (colliding a b).2 = (0, 0)) := by
  refine ⟨?_, ?_, ?_⟩
  · rw [colliding_fst]
    exact intersecting_eq_false_iff a b
  · intro hw hw2 ht hy1 hy2
    rw [colliding_fst, intersecting_eq_true_iff]
    exact ⟨by linarith, by linarith, hy1, hy2⟩
  · intro h
    rw [colliding_fst] at h
    exact colliding_snd_of_not_intersecting a b h

/-- Witness for C5: separated boxes test false with a zero vector;
edge-touching boxes test true. -/
theorem C5_boundary_policy_witness :
    (colliding ⟨0,0,1,1⟩ ⟨2,0,1,1⟩).1 = false ∧
    (colliding ⟨0,0,1,1⟩ ⟨2,0,1,1⟩).2 = (0, 0) ∧
    (colliding ⟨0,0,1,1⟩ ⟨1,0,1,1⟩).1 = true := by
  have h1 := C5_boundary_policy ⟨0,0,1,1⟩ ⟨2,0,1,1⟩
  have h2 := C5_boundary_policy ⟨0,0,1,1⟩ ⟨1,0,1,1⟩
  refine ⟨h1.1.mpr (by norm_num), h1.2.2 (h1.1.mpr (by norm_num)), ?_⟩
  exact h2.2.1 (by norm_num) (by norm_num) (by norm_num) (by norm_num)
    (by norm_num)

/-! ## Claim C1 -/

/-- C1 is false as stated: for A = (0,0,2,2) and B = (1,0,2,2) the resolve
vector is (-1,0); translating A by it leaves A = (-1,0,2,2) exactly
touching B, and the source's intersection test — which treats touching
edges as intersecting — still returns true. -/
theorem C1_counterexample :
    (colliding ⟨0,0,2,2⟩ ⟨1,0,2,2⟩).1 = true ∧
    (colliding ⟨0,0,2,2⟩ ⟨1,0,2,2⟩).2 = (-1, 0) ∧
    intersecting
      (Rect.translate ⟨0,0,2,2⟩ (colliding ⟨0,0,2,2⟩ ⟨1,0,2,2⟩).2)
      ⟨1,0,2,2⟩ = true := by
  have hc : colliding ⟨0,0,2,2⟩ ⟨1,0,2,2⟩ = (true, (-1, 0)) := by
    norm_num [colliding, intersecting]
  refine ⟨by rw [hc], by rw [hc], ?_⟩
  rw [hc]
  norm_num [Rect.translate, intersecting]

/-- C1 (amended): for intersecting axis-aligned boxes of arbitrary positive
size, translating the first box by the translation vector computed by
`RectCollider.colliding` yields a configuration with no strict overlap —
the boxes touch exactly on the resolved axis.  (The source's own
intersection test, which counts touching edges as intersecting, still
returns true there, which is what refutes the claim as stated.) -/
theorem C1_pushout_amended (a b : Rect)
    (haw : 0 < a.width) (hah : 0 < a.height)
    (hbw : 0 < b.width) (hbh : 0 < b.height)
    (hint : (colliding a b).1 = true) :
    ¬ strictOverlap (Rect.translate a (colliding a b).2) b := by
  rw [colliding_fst] at hint
  obtain ⟨h1, h2, h3, h4⟩ := (intersecting_eq_true_iff a b).mp hint
  unfold colliding
  rw [hint]
  simp only [Bool.not_true, Bool.false_eq_true, if_false]
  split_ifs with h5 h6 h7
  · unfold Rect.translate strictOverlap
    rintro ⟨c1, c2, c3, c4⟩
    have habs := abs_of_neg h6
    simp only at c1
    linarith
  · unfold Rect.translate strictOverlap
    rintro ⟨c1, c2, c3, c4⟩
    have habs := abs_of_nonneg (not_lt.mp h6)
    simp only at c2
    linarith
  · unfold Rect.translate strictOverlap
    rintro ⟨c1, c2, c3, c4⟩
    have habs := abs_of_neg h7
    simp only at c3
    linarith
  · unfold Rect.translate strictOverlap
    rintro ⟨c1, c2, c3, c4⟩
    have habs := abs_of_nonneg (not_lt.mp h7)
    simp only at c4
    linarith

/-- Witness for the amended C1 at the counterexample configuration. -/
theorem C1_pushout_amended_witness :
    ¬ strictOverlap
        (Rect.translate ⟨0,0,2,2⟩ (colliding ⟨0,0,2,2⟩ ⟨1,0,2,2⟩).2)
        ⟨1,0,2,2⟩ :=
  C1_pushout_amended ⟨0,0,2,2⟩ ⟨1,0,2,2⟩ (by norm_num) (by norm_num)
    (by norm_num) (by norm_num)
    (by rw [colliding_fst]; norm_num [intersecting])
/-! ## Claim C6 -/

lemma apply_deadzone_band (inner outer x : ℚ)
    (hxi : inner < |x|) (hxo : |x| < 1 - outer) :
    apply_deadzone x inner outer =
      (if 0 ≤ x then (1:ℚ) else -1) * ((|x| - inner) / ((1 - outer) - inner)) := by
  simp only [apply_deadzone]
  rw [if_neg (not_lt.mpr (le_of_lt hxi)), if_neg (not_lt.mpr (le_of_lt hxo))]

lemma apply_deadzone_band_abs (inner outer x : ℚ) (h1 : inner < 1 - outer)
    (hxi : inner < |x|) (hxo : |x| < 1 - outer) :
    |apply_deadzone x inner outer| = (|x| - inner) / ((1 - outer) - inner) := by
  rw [apply_deadzone_band inner outer x hxi hxo, abs_mul]
  have hq : (0:ℚ) ≤ (|x| - inner) / ((1 - outer) - inner) :=
    div_nonneg (by linarith) (by linarith)
  rw [abs_of_nonneg hq]
  split_ifs <;> norm_num

/-- C6: the joystick deadzone function `f = _apply_deadzone` with
parameters `inner` and `outer` satisfies, for inputs in `[-1, 1]`:
`f 0 = 0`; `f x = 0` when `|x| ≤ inner`; `f x = sign x` when
`|x| ≥ 1 - outer`; and on the open band it is the sign-preserving linear
rescale, with `|f x|` strictly between 0 and 1 and monotone in `|x|`. -/
theorem C6_deadzone (inner outer : ℚ)
    (h0 : 0 ≤ inner) (h1 : inner < 1 - outer) :
    apply_deadzone 0 inner outer = 0 ∧
    (∀ x : ℚ, |x| ≤ 1 → |x| ≤ inner → apply_deadzone x inner outer = 0) ∧
    (∀ x : ℚ, |x| ≤ 1 → 1 - outer ≤ |x| →
      apply_deadzone x inner outer = if 0 ≤ x then 1 else -1) ∧
    (∀ x : ℚ, |x| ≤ 1 → inner < |x| → |x| < 1 - outer →
      apply_deadzone x inner outer =
        (if 0 ≤ x then (1:ℚ) else -1) *
          ((|x| - inner) / ((1 - outer) - inner)) ∧
      0 < |apply_deadzone x inner outer| ∧
      |apply_deadzone x inner outer| < 1) ∧
    (∀ x y : ℚ, |x| ≤ 1 → |y| ≤ 1 → inner < |x| → |x| < 1 - outer →
      inner < |y| → |y| < 1 - outer → |x| ≤ |y| →
      |apply_deadzone x inner outer| ≤ |apply_deadzone y inner outer|) := by
  have hden : (0:ℚ) < (1 - outer) - inner := by linarith
  have zero_clause :
      ∀ x : ℚ, |x| ≤ 1 → |x| ≤ inner → apply_deadzone x inner outer = 0 := by
    intro x hx hxi
    simp only [apply_deadzone]
    rcases lt_or_eq_of_le hxi with h | h
    · rw [if_pos h]
    · rw [if_neg (by rw [h]; exact lt_irrefl inner),
        if_neg (by rw [h]; exact not_lt.mpr (le_of_lt h1)), h, sub_self,
        zero_div, mul_zero]
  refine ⟨?_, zero_clause, ?_, ?_, ?_⟩
  · exact zero_clause 0 (by norm_num) (by simpa using h0)
  · intro x hx hxo
    simp only [apply_deadzone]
    rw [if_neg (not_lt.mpr (by linarith))]
    rcases lt_or_eq_of_le hxo with h | h
    · rw [if_pos h, mul_one]
    · rw [if_neg (by rw [← h]; exact lt_irrefl _), ← h, div_self (by linarith),
        mul_one]
  · intro x hx hxi hxo
    refine ⟨apply_deadzone_band inner outer x hxi hxo, ?_, ?_⟩
    · rw [apply_deadzone_band_abs inner outer x h1 hxi hxo]
      exact div_pos (by linarith) hden
    · rw [apply_deadzone_band_abs inner outer x h1 hxi hxo]
      rw [div_lt_one hden]
      linarith
  · intro x y hx hy hxi hxo hyi hyo hxy
    rw [apply_deadzone_band_abs inner outer x h1 hxi hxo,
      apply_deadzone_band_abs inner outer y h1 hyi hyo]
    gcongr

/-- Witness for C6 at the source's defaults inner = 0.1, outer = 0.05:
`f(0.05) = 0`, `f(1) = 1`, and `f(0.5)` strictly between 0 and 1 in
magnitude. -/
theorem C6_deadzone_witness :
    apply_deadzone (1/20) (1/10) (1/20) = 0 ∧
    apply_deadzone 1 (1/10) (1/20) = 1 ∧
    0 < |apply_deadzone (1/2) (1/10) (1/20)| ∧
    |apply_deadzone (1/2) (1/10) (1/20)| < 1 := by
  have h := C6_deadzone (1/10) (1/20) (by norm_num) (by norm_num)
  refine ⟨h.2.1 (1/20) (by rw [abs_of_nonneg] <;> norm_num)
      (by rw [abs_of_nonneg] <;> norm_num), ?_, ?_, ?_⟩
  · have h2 := h.2.2.1 1 (by rw [abs_of_nonneg] <;> norm_num)
      (by rw [abs_of_nonneg] <;> norm_num)
    rw [if_pos (by norm_num)] at h2
    exact h2
  · exact (h.2.2.2.1 (1/2) (by rw [abs_of_nonneg] <;> norm_num)
      (by rw [abs_of_nonneg] <;> norm_num)
      (by rw [abs_of_nonneg] <;> norm_num)).2.1
  · exact (h.2.2.2.1 (1/2) (by rw [abs_of_nonneg] <;> norm_num)
      (by rw [abs_of_nonneg] <;> norm_num)
      (by rw [abs_of_nonneg] <;> norm_num)).2.2

/-! ## Claim C4 -/

/-- C4: press-mode semantics of `_Action.update`: pressed with positive
buffer keeps the action active and decrements the buffer by dt; pressed
with no buffer while already marked was-active deactivates; pressed
otherwise activates, marks was-active and resets the buffer to the
configured duration; not pressed deactivates and clears was-active. -/
theorem C4_press_mode (bd dt : ℚ) (a : InputAction) (p : Bool)
    (hm : a.mode = .press) :
    (p = true → 0 < a.buffer_remaining →
      (applyMode bd dt p a).active = true ∧
      (applyMode bd dt p a).buffer_remaining = a.buffer_remaining - dt ∧
      (applyMode bd dt p a).was_active = a.was_active) ∧
    (p = true → a.buffer_remaining ≤ 0 → a.was_active = true →
      (applyMode bd dt p a).active = false ∧
      (applyMode bd dt p a).was_active = true ∧
      (applyMode bd dt p a).buffer_remaining = a.buffer_remaining) ∧
    (p = true → a.buffer_remaining ≤ 0 → a.was_active = false →
      (applyMode bd dt p a).active = true ∧
      (applyMode bd dt p a).was_active = true ∧
      (applyMode bd dt p a).buffer_remaining = bd) ∧
    (p = false →
      (applyMode bd dt p a).active = false ∧
      (applyMode bd dt p a).was_active = false ∧
      (applyMode bd dt p a).buffer_remaining = a.buffer_remaining) := by
  refine ⟨?_, ?_, ?_, ?_⟩
  · intro hp h1
    subst hp
    simp [applyMode, hm, h1]
  · intro hp h1 h2
    subst hp
    simp [applyMode, hm, not_lt.mpr h1, h2]
  · intro hp h1 h2
    subst hp
    simp [applyMode, hm, not_lt.mpr h1, h2]
  · intro hp
    subst hp
    simp [applyMode, hm]

/-- Witness for C4: a press action with buffer duration 0 is active on the
first pressed frame and inactive on the next held frame. -/
theorem C4_press_mode_witness :
    (applyMode 0 0 true pressAction0).active = true ∧
    (applyMode 0 0 true (applyMode 0 0 true pressAction0)).active = false := by
  have h1 := C4_press_mode 0 0 pressAction0 true rfl
  have h2 := C4_press_mode 0 0 (applyMode 0 0 true pressAction0) true
    (by decide)
  exact ⟨(h1.2.2.1 rfl (by decide) (by decide)).1,
         (h2.2.1 rfl (by decide) (by decide)).1⟩

/-! ## Claim C2 -/

lemma mem_allButtons (b : GpButton) : b ∈ allButtons := by
  cases b <;> simp [allButtons]

lemma mem_allAxes (ax : GpAxis) : ax ∈ allAxes := by
  cases ax <;> simp [allAxes]

lemma pressed_buttons_length_pos (gp : GamepadState) (b : GpButton)
    (h : button_pressed gp b = true) : 0 < (pressed_buttons gp).length := by
  have hb : b ∈ pressed_buttons gp :=
    List.mem_filter.mpr ⟨mem_allButtons b, h⟩
  exact List.length_pos.mpr (List.ne_nil_of_mem hb)

lemma pressed_buttons_eq_nil (gp : GamepadState)
    (h : ∀ b, button_pressed gp b = false) : pressed_buttons gp = [] := by
  unfold pressed_buttons
  rw [List.filter_eq_nil_iff]
  intro b hb
  simp [h b]

/-- C2: each `Input.update` recomputes the dominant source with the
priority "disconnected → keyboard; any gamepad button pressed → gamepad;
any gamepad axis non-zero → gamepad; any keyboard key or mouse button
pressed → keyboard; otherwise retain"; and each action's binding test
consults only the bindings of the dominant source that frame. -/
theorem C2_source_arbitration (gp : GamepadState) (keys mouse : List Bool)
    (dt : ℚ) (st : InputState) :
    (gp.connected = false →
      (inputUpdate gp keys mouse dt st).last_input_source = .keyboard) ∧
    (gp.connected = true → (∃ b, button_pressed gp b = true) →
      (inputUpdate gp keys mouse dt st).last_input_source = .gamepad) ∧
    (gp.connected = true → (∀ b, button_pressed gp b = false) →
      (∃ ax, axis_value gp ax false ≠ 0) →
      (inputUpdate gp keys mouse dt st).last_input_source = .gamepad) ∧
    (gp.connected = true → (∀ b, button_pressed gp b = false) →
      (∀ ax, axis_value gp ax false = 0) →
      ((keys.any fun k => k) = true ∨ (mouse.any fun m => m) = true) →
      (inputUpdate gp keys mouse dt st).last_input_source = .keyboard) ∧
    (gp.connected = true → (∀ b, button_pressed gp b = false) →
      (∀ ax, axis_value gp ax false = 0) →
      (keys.any fun k => k) = false → (mouse.any fun m => m) = false →
      (inputUpdate gp keys mouse dt st).last_input_source =
        st.last_input_source) ∧
    (∀ a keys2 mouse2,
      actionUpdate .gamepad gp keys mouse st.buffer_duration dt a =
        actionUpdate .gamepad gp keys2 mouse2 st.buffer_duration dt a) ∧
    (∀ a gp2,
      actionUpdate .keyboard gp keys mouse st.buffer_duration dt a =
        actionUpdate .keyboard gp2 keys mouse st.buffer_duration dt a) ∧
    ((inputUpdate gp keys mouse dt st).actions = st.actions.map
      (fun p => (p.1,
        actionUpdate (computeSource gp keys mouse st.last_input_source)
          gp keys mouse st.buffer_duration dt p.2))) := by
  refine ⟨?_, ?_, ?_, ?_, ?_, ?_, ?_, rfl⟩
  · intro h
    simp [inputUpdate, computeSource, h]
  · intro h hb
    obtain ⟨b, hbp⟩ := hb
    have hl := pressed_buttons_length_pos gp b hbp
    simp [inputUpdate, computeSource, h, hl]
  · intro h hb hax
    obtain ⟨ax, haxne⟩ := hax
    have hnil := pressed_buttons_eq_nil gp hb
    have hany : (allAxes.any fun a => !decide (axis_value gp a false = 0))
        = true := by
      rw [List.any_eq_true]
      exact ⟨ax, mem_allAxes ax, by simp [haxne]⟩
    simp [inputUpdate, computeSource, h, hnil, hany]
  · intro h hb hax hkm
    have hnil := pressed_buttons_eq_nil gp hb
    have hany : (allAxes.any fun a => !decide (axis_value gp a false = 0))
        = false := by
      rw [List.any_eq_false]
      intro ax hmem
      simp [hax ax]
    have hkm2 : ((keys.any fun k => k) || (mouse.any fun m => m)) = true := by
      rcases hkm with h1 | h1 <;> simp [h1]
    simp [inputUpdate, computeSource, h, hnil, hany, hkm2]
  · intro h hb hax hk hm
    have hnil := pressed_buttons_eq_nil gp hb
    have hany : (allAxes.any fun a => !decide (axis_value gp a false = 0))
        = false := by
      rw [List.any_eq_false]
      intro ax hmem
      simp [hax ax]
    simp [inputUpdate, computeSource, h, hnil, hany, hk, hm]
  · intro a keys2 mouse2
    rfl
  · intro a gp2
    rfl

/-- Witness for C2: with a disconnected gamepad the source is keyboard even
while a key is held; with a connected gamepad holding the A button the
source is gamepad. -/
theorem C2_source_arbitration_witness :
    (inputUpdate gpOff [true] [false] 0 istEmpty).last_input_source =
      .keyboard ∧
    (inputUpdate gpBtn [false] [false] 0 istEmpty).last_input_source =
      .gamepad := by
  constructor
  · exact (C2_source_arbitration gpOff [true] [false] 0 istEmpty).1 rfl
  · exact (C2_source_arbitration gpBtn [false] [false] 0 istEmpty).2.1 rfl
      ⟨GpButton.a, by decide⟩

/-! ## Claims C8 and C9 -/

lemma resolveKeys_ok_iff (kc : String → Option Nat) (name : String)
    (keys : List String) :
    (∃ v, resolveKeys kc name keys = .ok v) ↔
      ∀ k ∈ keys, recognizedKey kc k := by
  induction keys with
  | nil => simp [resolveKeys]
  | cons k rest ih =>
      simp only [resolveKeys]
      cases hmb : tableGet MOUSE_BUTTONS (pyLower k) with
      | some m =>
          constructor
          · intro ⟨v, hv⟩ k2 hk2
            rcases List.mem_cons.mp hk2 with rfl | hk2
            · exact Or.inl (by simp [hmb])
            · rcases hrest : resolveKeys kc name rest with e | ⟨ks, ms⟩
              · rw [hrest] at hv
                simp at hv
              · exact (ih.mp ⟨(ks, ms), hrest⟩) k2 hk2
          · intro hall
            obtain ⟨⟨ks, ms⟩, hrest⟩ :=
              ih.mpr (fun k2 hk2 => hall k2 (List.mem_cons_of_mem k hk2))
            exact ⟨(ks, m :: ms), by rw [hrest]⟩
      | none =>
          cases hkc : kc (aliased (pyLower k)) with
          | some code =>
              constructor
              · intro ⟨v, hv⟩ k2 hk2
                rcases List.mem_cons.mp hk2 with rfl | hk2
                · exact Or.inr (by simp [hkc])
                · rw [show (match tableGet KEY_ALIASES (pyLower k) with
                      | some al => al
                      | none => pyLower k) = aliased (pyLower k) from rfl,
                    hkc] at hv
                  rcases hrest : resolveKeys kc name rest with e | ⟨ks, ms⟩
                  · rw [hrest] at hv
                    simp at hv
                  · exact (ih.mp ⟨(ks, ms), hrest⟩) k2 hk2
              · intro hall
                obtain ⟨⟨ks, ms⟩, hrest⟩ :=
                  ih.mpr (fun k2 hk2 => hall k2 (List.mem_cons_of_mem k hk2))
                refine ⟨(code :: ks, ms), ?_⟩
                rw [show (match tableGet KEY_ALIASES (pyLower k) with
                    | some al => al
                    | none => pyLower k) = aliased (pyLower k) from rfl,
                  hkc, hrest]
          | none =>
              constructor
              · intro ⟨v, hv⟩
                rw [show (match tableGet KEY_ALIASES (pyLower k) with
                    | some al => al
                    | none => pyLower k) = aliased (pyLower k) from rfl,
                  hkc] at hv
                simp at hv
              · intro hall
                have := hall k (List.mem_cons_self k rest)
                rw [recognizedKey, hmb, hkc] at this
                simp at this

lemma resolveKeys_first_error (kc : String → Option Nat) (name : String)
    (keys : List String) (hbad : ¬ ∀ k ∈ keys, recognizedKey kc k) :
    ∃ k ∈ keys, ¬ recognizedKey kc k ∧
      resolveKeys kc name keys =
        .error ("Invalid key \"" ++ aliased (pyLower k) ++
                "\" bound to action \"" ++ name ++ "\".") := by
  induction keys with
  | nil => exact absurd (by simp) hbad
  | cons k rest ih =>
      by_cases hk : recognizedKey kc k
      · have hbad2 : ¬ ∀ k2 ∈ rest, recognizedKey kc k2 := by
          intro hall
          exact hbad (by
            intro k2 hk2
            rcases List.mem_cons.mp hk2 with rfl | hk2
            · exact hk
            · exact hall k2 hk2)
        obtain ⟨k2, hk2, hk2bad, herr⟩ := ih hbad2
        refine ⟨k2, List.mem_cons_of_mem k hk2, hk2bad, ?_⟩
        simp only [resolveKeys]
        rcases hk with hmb | hkc
        · rw [Option.isSome_iff_exists] at hmb
          obtain ⟨m, hm⟩ := hmb
          rw [hm, herr]
        · cases hmb : tableGet MOUSE_BUTTONS (pyLower k) with
          | some m => rw [herr]
          | none =>
              rw [Option.isSome_iff_exists] at hkc
              obtain ⟨code, hcode⟩ := hkc
              rw [show (match tableGet KEY_ALIASES (pyLower k) with
                  | some al => al
                  | none => pyLower k) = aliased (pyLower k) from rfl,
                hcode, herr]
      · refine ⟨k, List.mem_cons_self k rest, hk, ?_⟩
        rw [recognizedKey, not_or] at hk
        obtain ⟨hmb, hkc⟩ := hk
        rw [Option.not_isSome_iff_eq_none] at hmb hkc
        simp only [resolveKeys]
        rw [hmb,
          show (match tableGet KEY_ALIASES (pyLower k) with
              | some al => al
              | none => pyLower k) = aliased (pyLower k) from rfl,
          hkc]

lemma resolveButtons_ok_iff (name : String) (buttons : List String) :
    (∃ v, resolveButtons name buttons = .ok v) ↔
      ∀ b ∈ buttons, recognizedButton b := by
  induction buttons with
  | nil => simp [resolveButtons]
  | cons b rest ih =>
      simp only [resolveButtons]
      cases hgb : tableGet GAMEPAD_BUTTONS (pyLower b) with
      | some code =>
          constructor
          · intro ⟨v, hv⟩ b2 hb2
            rcases List.mem_cons.mp hb2 with rfl | hb2
            · rw [recognizedButton, hgb]
              rfl
            · rcases hrest : resolveButtons name rest with e | gs
              · rw [hrest] at hv
                simp at hv
              · exact (ih.mp ⟨gs, hrest⟩) b2 hb2
          · intro hall
            obtain ⟨gs, hrest⟩ :=
              ih.mpr (fun b2 hb2 => hall b2 (List.mem_cons_of_mem b hb2))
            exact ⟨code :: gs, by rw [hrest]⟩
      | none =>
          constructor
          · intro ⟨v, hv⟩
            simp at hv
          · intro hall
            have := hall b (List.mem_cons_self b rest)
            rw [recognizedButton, hgb] at this
            simp at this

lemma resolveButtons_first_error (name : String) (buttons : List String)
    (hbad : ¬ ∀ b ∈ buttons, recognizedButton b) :
    ∃ b ∈ buttons, ¬ recognizedButton b ∧
      resolveButtons name buttons =
        .error ("Invalid gamepad button \"" ++ pyLower b ++
                "\" bound to action \"" ++ name ++ "\".") := by
  induction buttons with
  | nil => exact absurd (by simp) hbad
  | cons b rest ih =>
      by_cases hb : recognizedButton b
      · have hbad2 : ¬ ∀ b2 ∈ rest, recognizedButton b2 := by
          intro hall
          exact hbad (by
            intro b2 hb2
            rcases List.mem_cons.mp hb2 with rfl | hb2
            · exact hb
            · exact hall b2 hb2)
        obtain ⟨b2, hb2, hb2bad, herr⟩ := ih hbad2
        refine ⟨b2, List.mem_cons_of_mem b hb2, hb2bad, ?_⟩
        rw [recognizedButton, Option.isSome_iff_exists] at hb
        obtain ⟨code, hcode⟩ := hb
        simp only [resolveButtons]
        rw [hcode, herr]
      · refine ⟨b, List.mem_cons_self b rest, hb, ?_⟩
        rw [recognizedButton, Option.not_isSome_iff_eq_none] at hb
        simp only [resolveButtons]
        rw [hb]

lemma mkAction_ok_iff (kc : String → Option Nat) (name : String)
    (keys buttons : List String) (mode : Mode) (chord : Bool) :
    (∃ a, mkAction kc name keys buttons mode chord = .ok a) ↔
      (∀ k ∈ keys, recognizedKey kc k) ∧
      (∀ b ∈ buttons, recognizedButton b) := by
  constructor
  · intro ⟨a, ha⟩
    unfold mkAction at ha
    rcases hrk : resolveKeys kc name keys with e | ⟨ks, ms⟩
    · rw [hrk] at ha
      simp at ha
    · rw [hrk] at ha
      rcases hrb : resolveButtons name buttons with e | gs
      · rw [hrb] at ha
        simp at ha
      · exact ⟨(resolveKeys_ok_iff kc name keys).mp ⟨(ks, ms), hrk⟩,
          (resolveButtons_ok_iff name buttons).mp ⟨gs, hrb⟩⟩
  · intro ⟨hk, hb⟩
    obtain ⟨⟨ks, ms⟩, hrk⟩ := (resolveKeys_ok_iff kc name keys).mpr hk
    obtain ⟨gs, hrb⟩ := (resolveButtons_ok_iff name buttons).mpr hb
    refine ⟨{ key_codes := ks, mouse_codes := ms, gamepad_codes := gs,
              mode := mode, chord := chord, active := false,
              was_active := false, buffer_remaining := 0 }, ?_⟩
    unfold mkAction
    rw [hrk, hrb]

/-- C8: `Input.add_action` raises exactly when the name is taken, both
binding lists are empty, a key/mouse name (after lowercasing and aliasing)
is unrecognized, or a gamepad-button name is unrecognized; in the
unrecognized-name cases the message names the offending binding and the
action; otherwise the action is appended to the registry under the given
name. -/
theorem C8_add_action_errors (kc : String → Option Nat) (st : InputState)
    (name : String) (keys buttons : List String) (mode : Mode)
    (chord : Bool) :
    ((add_action kc st name keys buttons mode chord).2 = none ↔
      (¬(keys = [] ∧ buttons = []) ∧
       (∀ p ∈ st.actions, p.1 ≠ name) ∧
       (∀ k ∈ keys, recognizedKey kc k) ∧
       (∀ b ∈ buttons, recognizedButton b))) ∧
    ((add_action kc st name keys buttons mode chord).2 = none →
      ∃ a, (add_action kc st name keys buttons mode chord).1.actions =
        st.actions ++ [(name, a)]) ∧
    (¬(keys = [] ∧ buttons = []) → (∀ p ∈ st.actions, p.1 ≠ name) →
      (¬ ∀ k ∈ keys, recognizedKey kc k) →
      ∃ k ∈ keys, ¬ recognizedKey kc k ∧
        (add_action kc st name keys buttons mode chord).2 =
          some ("Invalid key \"" ++ aliased (pyLower k) ++
                "\" bound to action \"" ++ name ++ "\".")) ∧
    (¬(keys = [] ∧ buttons = []) → (∀ p ∈ st.actions, p.1 ≠ name) →
      (∀ k ∈ keys, recognizedKey kc k) →
      (¬ ∀ b ∈ buttons, recognizedButton b) →
      ∃ b ∈ buttons, ¬ recognizedButton b ∧
        (add_action kc st name keys buttons mode chord).2 =
          some ("Invalid gamepad button \"" ++ pyLower b ++
                "\" bound to action \"" ++ name ++ "\".")) := by
  have hlen : ∀ h1 : ¬(keys = [] ∧ buttons = []),
      (decide (keys.length = 0) && decide (buttons.length = 0)) = false := by
    intro h1
    rw [Bool.and_eq_false_iff]
    by_cases hk : keys = []
    · right
      have hb : buttons ≠ [] := fun hb => h1 ⟨hk, hb⟩
      simp [List.length_eq_zero, hb]
    · left
      simp [List.length_eq_zero, hk]
  have hdup : ∀ h2 : ∀ p ∈ st.actions, p.1 ≠ name,
      (st.actions.any fun p => decide (p.1 = name)) = false := by
    intro h2
    rw [List.any_eq_false]
    intro p hp
    simp [h2 p hp]
  refine ⟨⟨?_, ?_⟩, ?_, ?_, ?_⟩
  · intro h
    unfold add_action at h
    split_ifs at h with h1 h2
    rcases hmk : mkAction kc name keys buttons mode chord with e | a
    · rw [hmk] at h
      simp at h
    · have hok := (mkAction_ok_iff kc name keys buttons mode chord).mp
        ⟨a, hmk⟩
      refine ⟨?_, ?_, hok.1, hok.2⟩
      · intro ⟨hk, hb⟩
        subst hk
        subst hb
        simp at h1
      · intro p hp hcontra
        exact h2 (by
          rw [List.any_eq_true]
          exact ⟨p, hp, by simp [hcontra]⟩)
  · intro ⟨h1, h2, h3, h4⟩
    unfold add_action
    rw [if_neg (by rw [hlen h1]; simp), if_neg (by rw [hdup h2]; simp)]
    obtain ⟨a, ha⟩ :=
      (mkAction_ok_iff kc name keys buttons mode chord).mpr ⟨h3, h4⟩
    rw [ha]
  · intro h
    unfold add_action at h ⊢
    split_ifs at h ⊢ with h1 h2
    rcases hmk : mkAction kc name keys buttons mode chord with e | a
    · rw [hmk] at h
      simp at h
    · exact ⟨a, rfl⟩
  · intro h1 h2 h3
    obtain ⟨k, hk, hkbad, herr⟩ := resolveKeys_first_error kc name keys h3
    refine ⟨k, hk, hkbad, ?_⟩
    unfold add_action
    rw [if_neg (by rw [hlen h1]; simp), if_neg (by rw [hdup h2]; simp)]
    have hmk : mkAction kc name keys buttons mode chord =
        .error ("Invalid key \"" ++ aliased (pyLower k) ++
                "\" bound to action \"" ++ name ++ "\".") := by
      unfold mkAction
      rw [herr]
    rw [hmk]
  · intro h1 h2 h3 h4
    obtain ⟨b, hb, hbbad, herr⟩ := resolveButtons_first_error name buttons h4
    refine ⟨b, hb, hbbad, ?_⟩
    unfold add_action
    rw [if_neg (by rw [hlen h1]; simp), if_neg (by rw [hdup h2]; simp)]
    obtain ⟨⟨ks, ms⟩, hrk⟩ := (resolveKeys_ok_iff kc name keys).mpr h3
    have hmk : mkAction kc name keys buttons mode chord =
        .error ("Invalid gamepad button \"" ++ pyLower b ++
                "\" bound to action \"" ++ name ++ "\".") := by
      unfold mkAction
      rw [hrk, herr]
    rw [hmk]

/-- Witness for C8: registering "jump" on key "A" succeeds and appends to
the registry; the unknown key "qq" fails with the descriptive message. -/
theorem C8_add_action_errors_witness :
    (add_action kc0 istEmpty "jump" ["A"] [] .hold false).2 = none ∧
    (∃ k ∈ ["qq"], ¬ recognizedKey kc0 k ∧
      (add_action kc0 istEmpty "jump" ["qq"] [] .hold false).2 =
        some ("Invalid key \"" ++ aliased (pyLower k) ++
              "\" bound to action \"" ++ "jump" ++ "\".")) := by
  constructor
  · exact (C8_add_action_errors kc0 istEmpty "jump" ["A"] [] .hold
      false).1.mpr ⟨by simp, by simp [istEmpty], by decide, by simp⟩
  · exact (C8_add_action_errors kc0 istEmpty "jump" ["qq"] [] .hold
      false).2.2.1 (by simp) (by simp [istEmpty]) (by decide)

/-- C9: a failing `add_action` call (duplicate name, empty bindings, or
unrecognized binding name) leaves the registry exactly as it was, and a
subsequent call behaves as if the failing call never happened. -/
theorem C9_add_action_atomicity (kc : String → Option Nat) (st : InputState)
    (name : String) (keys buttons : List String) (mode : Mode)
    (chord : Bool) (e : String)
    (h : (add_action kc st name keys buttons mode chord).2 = some e) :
    (add_action kc st name keys buttons mode chord).1 = st ∧
    (∀ name2 keys2 buttons2 mode2 chord2,
      add_action kc (add_action kc st name keys buttons mode chord).1
        name2 keys2 buttons2 mode2 chord2 =
      add_action kc st name2 keys2 buttons2 mode2 chord2) := by
  have h1 : (add_action kc st name keys buttons mode chord).1 = st := by
    unfold add_action at h ⊢
    split_ifs at h ⊢
    · rfl
    · rfl
    · rcases hmk : mkAction kc name keys buttons mode chord with e2 | a
      · rfl
      · rw [hmk] at h
        simp at h
  exact ⟨h1, fun name2 keys2 buttons2 mode2 chord2 => by rw [h1]⟩

/-- Witness for C9: a call with no bindings raises and leaves the empty
registry unchanged. -/
theorem C9_add_action_atomicity_witness :
    (add_action kc0 istEmpty "jump" [] [] .hold false).1 = istEmpty :=
  (C9_add_action_atomicity kc0 istEmpty "jump" [] [] .hold false
    ("The action \"jump\" has no keyboard keys, mouse buttons, or gamepad " ++
     "buttons bound to it.")
    (by decide)).1

/-! ## Engine lemmas -/

lemma assocGet_assocSet_self (m : List (ℚ × List Nat)) (i : ℚ)
    (v : List Nat) : assocGet (assocSet m i v) i = v := by
  induction m with
  | nil => simp [assocSet, assocGet]
  | cons p rest ih =>
      obtain ⟨k, w⟩ := p
      by_cases h : k = i
      · simp [assocSet, assocGet, h]
      · simp [assocSet, assocGet, h, ih]

lemma assocGet_assocSet_ne (m : List (ℚ × List Nat)) (i j : ℚ)
    (v : List Nat) (h : j ≠ i) :
    assocGet (assocSet m i v) j = assocGet m j := by
  have hij : ¬ i = j := fun hh => h hh.symm
  induction m with
  | nil => simp only [assocSet, assocGet, if_neg hij]
  | cons p rest ih =>
      obtain ⟨k, w⟩ := p
      by_cases hk : k = i
      · subst hk
        simp only [assocSet, if_pos rfl, assocGet, if_neg hij]
      · simp only [assocSet, if_neg hk, assocGet]
        by_cases hkj : k = j
        · rw [if_pos hkj, if_pos hkj]
        · rw [if_neg hkj, if_neg hkj, ih]

lemma map_fst_assocSet_of_mem (m : List (ℚ × List Nat)) (i : ℚ)
    (v : List Nat) (h : i ∈ m.map Prod.fst) :
    (assocSet m i v).map Prod.fst = m.map Prod.fst := by
  induction m with
  | nil => simp at h
  | cons p rest ih =>
      obtain ⟨k, w⟩ := p
      by_cases hk : k = i
      · simp [assocSet, hk]
      · have h2 : i ∈ rest.map Prod.fst := by
          rcases List.mem_map.mp h with ⟨q, hq, hq2⟩
          rcases List.mem_cons.mp hq with rfl | hq
          · exact absurd hq2 hk
          · exact List.mem_map.mpr ⟨q, hq, hq2⟩
        simp [assocSet, hk, ih h2]

lemma assocGet_eq_nil_of_not_mem (m : List (ℚ × List Nat)) (k : ℚ)
    (h : k ∉ m.map Prod.fst) : assocGet m k = [] := by
  induction m with
  | nil => rfl
  | cons p rest ih =>
      obtain ⟨k2, w⟩ := p
      simp only [List.map_cons, List.mem_cons, not_or] at h
      simp only [assocGet]
      rw [if_neg (fun hh => h.1 hh.symm), ih h.2]

lemma mem_map_fst_of_mem_assocGet (m : List (ℚ × List Nat)) (k : ℚ)
    (x : Nat) (h : x ∈ assocGet m k) : k ∈ m.map Prod.fst := by
  by_contra hk
  rw [assocGet_eq_nil_of_not_mem m k hk] at h
  simp at h

lemma filterBuckets_spec (pred : Nat → Bool) (idxs : List ℚ)
    (m : List (ℚ × List Nat)) (hnd : idxs.Nodup)
    (hsub : ∀ i ∈ idxs, i ∈ m.map Prod.fst) :
    ((filterBuckets pred idxs m).map Prod.fst = m.map Prod.fst) ∧
    (∀ k, assocGet (filterBuckets pred idxs m) k =
      if k ∈ idxs then (assocGet m k).filter (fun e => !pred e)
      else assocGet m k) := by
  induction idxs generalizing m with
  | nil => simp [filterBuckets]
  | cons i rest ih =>
      have hstep : filterBuckets pred (i :: rest) m =
          filterBuckets pred rest
            (assocSet m i ((assocGet m i).filter (fun e => !pred e))) := rfl
      have hikey : i ∈ m.map Prod.fst := hsub i (List.mem_cons_self i rest)
      have hkeys1 :
          (assocSet m i ((assocGet m i).filter (fun e => !pred e))).map
            Prod.fst = m.map Prod.fst :=
        map_fst_assocSet_of_mem m i _ hikey
      have hnd2 := (List.nodup_cons.mp hnd).2
      have hni := (List.nodup_cons.mp hnd).1
      have hsub2 : ∀ j ∈ rest,
          j ∈ (assocSet m i ((assocGet m i).filter
            (fun e => !pred e))).map Prod.fst := by
        intro j hj
        rw [hkeys1]
        exact hsub j (List.mem_cons_of_mem i hj)
      obtain ⟨ihkeys, ihget⟩ := ih _ hnd2 hsub2
      constructor
      · rw [hstep, ihkeys, hkeys1]
      · intro k
        rw [hstep, ihget k]
        by_cases hkr : k ∈ rest
        · have hki : k ≠ i := fun hh => hni (hh ▸ hkr)
          rw [if_pos hkr, if_pos (List.mem_cons_of_mem i hkr),
            assocGet_assocSet_ne m i k _ hki]
        · rw [if_neg hkr]
          by_cases hki : k = i
          · subst hki
            rw [assocGet_assocSet_self, if_pos (List.mem_cons_self k rest)]
          · rw [assocGet_assocSet_ne m i k _ hki,
              if_neg (by simp [hki, hkr])]

lemma assocGet_filterBuckets_subset (pred : Nat → Bool) (idxs : List ℚ)
    (m : List (ℚ × List Nat)) (k : ℚ) (x : Nat)
    (hx : x ∈ assocGet (filterBuckets pred idxs m) k) :
    x ∈ assocGet m k := by
  induction idxs generalizing m with
  | nil => exact hx
  | cons i rest ih =>
      have hstep : filterBuckets pred (i :: rest) m =
          filterBuckets pred rest
            (assocSet m i ((assocGet m i).filter (fun e => !pred e))) := rfl
      rw [hstep] at hx
      have hx2 := ih _ hx
      by_cases hki : k = i
      · subst hki
        rw [assocGet_assocSet_self] at hx2
        exact List.mem_of_mem_filter hx2
      · rwa [assocGet_assocSet_ne m i k _ hki] at hx2

lemma sweep_trace_subset (effect : Nat → List Nat) (l : List Nat) :
    ∀ marked : Nat → Bool, ∀ e ∈ (sweep effect l marked).2, e ∈ l := by
  induction l with
  | nil => simp [sweep]
  | cons a rest ih =>
      intro marked e he
      unfold sweep at he
      split_ifs at he with h
      · exact List.mem_cons_of_mem a (ih marked e he)
      · simp only [List.mem_cons] at he ⊢
        rcases he with rfl | he
        · exact Or.inl rfl
        · exact Or.inr (ih _ e he)

lemma sweep_append (effect : Nat → List Nat) (l1 l2 : List Nat) :
    ∀ m : Nat → Bool, sweep effect (l1 ++ l2) m =
      ((sweep effect l2 (sweep effect l1 m).1).1,
       (sweep effect l1 m).2 ++ (sweep effect l2 (sweep effect l1 m).1).2) := by
  induction l1 with
  | nil => simp [sweep]
  | cons a rest ih =>
      intro m
      by_cases h : m a = true
      · have hL : sweep effect (a :: rest ++ l2) m =
            sweep effect (rest ++ l2) m := by
          simp [sweep, h]
        have hR : sweep effect (a :: rest) m = sweep effect rest m := by
          simp [sweep, h]
        rw [hL, hR, ih m]
      · have hL : sweep effect (a :: rest ++ l2) m =
            ((sweep effect (rest ++ l2) (markSet m (effect a))).1,
             a :: (sweep effect (rest ++ l2) (markSet m (effect a))).2) := by
          simp [sweep, h]
        have hR : sweep effect (a :: rest) m =
            ((sweep effect rest (markSet m (effect a))).1,
             a :: (sweep effect rest (markSet m (effect a))).2) := by
          simp [sweep, h]
        rw [hL, hR, ih (markSet m (effect a))]
        simp

lemma engine_update_entities (effect : Nat → List Nat) (st : EngState) :
    (engine_update effect st).st.entities =
      st.entities.filter
        (fun e => !(sweep effect st.entities st.marked).1 e) := rfl

lemma engine_update_layers (effect : Nat → List Nat) (st : EngState) :
    (engine_update effect st).st.display_layers =
      filterBuckets (fun e => (sweep effect st.entities st.marked).1 e)
        st.layer_indexes st.display_layers := rfl

lemma engine_update_indexes (effect : Nat → List Nat) (st : EngState) :
    (engine_update effect st).st.layer_indexes = st.layer_indexes := rfl

lemma engine_update_removed (effect : Nat → List Nat) (st : EngState) :
    (engine_update effect st).removed =
      st.entities.filter
        (fun e => (sweep effect st.entities st.marked).1 e) := rfl

lemma engine_update_updated (effect : Nat → List Nat) (st : EngState) :
    (engine_update effect st).updated =
      (sweep effect st.entities st.marked).2 := rfl

lemma engine_update_preserves_absent (effect : Nat → List Nat)
    (st : EngState) (e : Nat) (h1 : e ∉ st.entities)
    (h2 : ∀ k, e ∉ assocGet st.display_layers k) :
    e ∉ (engine_update effect st).st.entities ∧
    (∀ k, e ∉ assocGet (engine_update effect st).st.display_layers k) := by
  constructor
  · rw [engine_update_entities]
    intro hmem
    exact h1 (List.mem_of_mem_filter hmem)
  · intro k
    rw [engine_update_layers]
    intro hmem
    exact h2 k (assocGet_filterBuckets_subset _ _ _ _ _ hmem)

lemma frames_preserves_absent (effs : List (Nat → List Nat)) :
    ∀ st : EngState, ∀ e : Nat, e ∉ st.entities →
    (∀ k, e ∉ assocGet st.display_layers k) →
    e ∉ (frames effs st).entities ∧
    (∀ k, e ∉ assocGet (frames effs st).display_layers k) := by
  induction effs with
  | nil => exact fun st e h1 h2 => ⟨h1, h2⟩
  | cons f rest ih =>
      intro st e h1 h2
      have hstep := engine_update_preserves_absent f st e h1 h2
      exact ih _ e hstep.1 hstep.2

lemma mem_render_dispatch (st : EngState) (x : Nat)
    (h : x ∈ render_dispatch st) :
    ∃ k, x ∈ assocGet st.display_layers k := by
  unfold render_dispatch at h
  rw [List.mem_flatten] at h
  obtain ⟨l, hl, hx⟩ := h
  rw [List.mem_map] at hl
  obtain ⟨k, hk, rfl⟩ := hl
  exact ⟨k, hx⟩

lemma remove_if_entities (pred : Nat → Bool) (silent : Bool) (st : EngState) :
    (remove_if pred silent st).1.entities =
      st.entities.filter (fun e => !pred e) := rfl

lemma remove_if_layers (pred : Nat → Bool) (silent : Bool) (st : EngState) :
    (remove_if pred silent st).1.display_layers =
      filterBuckets pred st.layer_indexes st.display_layers := rfl

lemma remove_if_indexes (pred : Nat → Bool) (silent : Bool) (st : EngState) :
    (remove_if pred silent st).1.layer_indexes = st.layer_indexes := rfl

lemma assocGet_append (m1 m2 : List (ℚ × List Nat)) (k : ℚ) :
    assocGet (m1 ++ m2) k =
      if k ∈ m1.map Prod.fst then assocGet m1 k else assocGet m2 k := by
  induction m1 with
  | nil => simp [assocGet]
  | cons p rest ih =>
      obtain ⟨k2, w⟩ := p
      show assocGet ((k2, w) :: (rest ++ m2)) k = _
      by_cases h : k2 = k
      · subst h
        simp [assocGet]
      · simp only [assocGet, if_neg h]
        rw [ih]
        simp only [List.map_cons, List.mem_cons]
        by_cases h2 : k ∈ rest.map Prod.fst
        · rw [if_pos h2, if_pos (Or.inr h2)]
        · rw [if_neg h2,
            if_neg (fun hc => hc.elim (fun hc2 => h hc2.symm) h2)]

lemma EngInv_remove_if (layerOf : Nat → ℚ) (pred : Nat → Bool)
    (silent : Bool) (st : EngState) (h : EngInv layerOf st) :
    EngInv layerOf (remove_if pred silent st).1 := by
  obtain ⟨hs, hnd, hknd, hki, hik, hmem⟩ := h
  obtain ⟨hkeys, hget⟩ :=
    filterBuckets_spec pred st.layer_indexes st.display_layers hnd hik
  refine ⟨?_, ?_, ?_, ?_, ?_, ?_⟩
  · rw [remove_if_indexes]
    exact hs
  · rw [remove_if_indexes]
    exact hnd
  · rw [remove_if_layers, hkeys]
    exact hknd
  · intro k hk
    rw [remove_if_layers, hkeys] at hk
    rw [remove_if_indexes]
    exact hki k hk
  · intro k hk
    rw [remove_if_indexes] at hk
    rw [remove_if_layers, hkeys]
    exact hik k hk
  · intro e he
    rw [remove_if_entities] at he
    rw [remove_if_layers, hget (layerOf e)]
    have he2 := List.mem_of_mem_filter he
    have hpe : pred e = false := by
      have hof := List.of_mem_filter he
      simpa using hof
    have hbucket := hmem e he2
    have hkey : layerOf e ∈ st.layer_indexes :=
      hki _ (mem_map_fst_of_mem_assocGet _ _ _ hbucket)
    rw [if_pos hkey]
    exact List.mem_filter.mpr ⟨hbucket, by simp [hpe]⟩

lemma EngInv_add_entity (layerOf : Nat → ℚ) (st : EngState) (e : Nat)
    (h : EngInv layerOf st) : EngInv layerOf (add_entity layerOf st e) := by
  obtain ⟨hs, hnd, hknd, hki, hik, hmem⟩ := h
  unfold add_entity
  by_cases hl : layerOf e ∈ st.layer_indexes
  · rw [if_pos hl]
    have hlkey : layerOf e ∈ st.display_layers.map Prod.fst := hik _ hl
    refine ⟨hs, hnd, ?_, ?_, ?_, ?_⟩
    · rw [map_fst_assocSet_of_mem _ _ _ hlkey]
      exact hknd
    · intro k hk
      rw [map_fst_assocSet_of_mem _ _ _ hlkey] at hk
      exact hki k hk
    · intro k hk
      rw [map_fst_assocSet_of_mem _ _ _ hlkey]
      exact hik k hk
    · intro x hx
      rcases List.mem_append.mp hx with hx | hx
      · by_cases hxe : layerOf x = layerOf e
        · rw [hxe, assocGet_assocSet_self]
          exact List.mem_append_left _ (hxe ▸ hmem x hx)
        · rw [assocGet_assocSet_ne _ _ _ _ hxe]
          exact hmem x hx
      · have hxe : x = e := by simpa using hx
        subst hxe
        rw [assocGet_assocSet_self]
        exact List.mem_append_right _ (by simp)
  · rw [if_neg hl]
    have hlkey : layerOf e ∉ st.display_layers.map Prod.fst :=
      fun hc => hl (hki _ hc)
    have hperm :=
      List.perm_insertionSort (· ≤ ·) (st.layer_indexes ++ [layerOf e])
    refine ⟨?_, ?_, ?_, ?_, ?_, ?_⟩
    · exact List.sorted_insertionSort _ _
    · refine hperm.symm.nodup ?_
      rw [List.nodup_append]
      refine ⟨hnd, by simp, ?_⟩
      intro a ha hc
      have ha2 : a = layerOf e := by simpa using hc
      exact hl (ha2 ▸ ha)
    · rw [List.map_append, List.nodup_append]
      refine ⟨hknd, by simp, ?_⟩
      intro a ha hc
      have ha2 : a = layerOf e := by simpa using hc
      exact hlkey (ha2 ▸ ha)
    · intro k hk
      rw [List.map_append] at hk
      rw [hperm.mem_iff]
      rcases List.mem_append.mp hk with hk | hk
      · exact List.mem_append_left _ (hki k hk)
      · have hke : k = layerOf e := by simpa using hk
        subst hke
        exact List.mem_append_right _ (by simp)
    · intro k hk
      rw [hperm.mem_iff] at hk
      rw [List.map_append]
      rcases List.mem_append.mp hk with hk | hk
      · exact List.mem_append_left _ (hik k hk)
      · have hke : k = layerOf e := by simpa using hk
        subst hke
        exact List.mem_append_right _ (by simp)
    · intro x hx
      rw [assocGet_append]
      rcases List.mem_append.mp hx with hx | hx
      · have hb := hmem x hx
        have hxkey : layerOf x ∈ st.display_layers.map Prod.fst :=
          mem_map_fst_of_mem_assocGet _ _ _ hb
        rw [if_pos hxkey]
        exact hb
      · have hxe : x = e := by simpa using hx
        subst hxe
        rw [if_neg hlkey]
        simp [assocGet]

lemma remove_all_state (silent : Bool) (st : EngState) :
    (remove_all silent st).1 =
      { entities := st.entities.filter (fun _ => !true),
        display_layers := [], layer_indexes := [],
        marked := st.marked } := rfl

lemma EngInv_remove_all (layerOf : Nat → ℚ) (silent : Bool) (st : EngState) :
    EngInv layerOf (remove_all silent st).1 := by
  rw [remove_all_state]
  simp [EngInv, assocGet]

lemma EngInv_engine_update (layerOf : Nat → ℚ) (effect : Nat → List Nat)
    (st : EngState) (h : EngInv layerOf st) :
    EngInv layerOf (engine_update effect st).st := by
  have h2 : EngInv layerOf
      { st with marked := (sweep effect st.entities st.marked).1 } := h
  exact EngInv_remove_if layerOf _ false _ h2

/-! ## Claim C10 -/

/-- C10: the engine's bookkeeping invariant — layer-index list sorted
ascending and duplicate-free, matching the display-layer map's keys
exactly, and every entity of the flat list present in the bucket of its
display layer — holds of the initial state and is preserved by
`add_entity`, `remove_if`, `remove_all`, `remove_tagged` and `update`
(and trivially by `render`, which does not mutate state). -/
theorem C10_bookkeeping_invariant (layerOf : Nat → ℚ)
    (tagsOf : Nat → List Nat) (st : EngState) (e : Nat) (pred : Nat → Bool)
    (s1 s2 s3 : Bool) (tag : Nat) (effect : Nat → List Nat)
    (h : EngInv layerOf st) :
    EngInv layerOf engineInitState ∧
    EngInv layerOf (add_entity layerOf st e) ∧
    EngInv layerOf (remove_if pred s1 st).1 ∧
    EngInv layerOf (remove_all s2 st).1 ∧
    EngInv layerOf (remove_tagged tagsOf tag s3 st).1 ∧
    EngInv layerOf (engine_update effect st).st :=
  ⟨by simp [EngInv, engineInitState, assocGet],
   EngInv_add_entity layerOf st e h,
   EngInv_remove_if layerOf pred s1 st h,
   EngInv_remove_all layerOf s2 st,
   EngInv_remove_if layerOf _ s3 st h,
   EngInv_engine_update layerOf effect st h⟩

/-- Witness for C10 on the three-entity state with layers 0, −5, 5. -/
theorem C10_bookkeeping_invariant_witness :
    EngInv L0 (add_entity L0 st3 7) ∧
    EngInv L0 (remove_if (fun e => decide (e = 1)) false st3).1 ∧
    EngInv L0 (engine_update eff0 st3).st := by
  have h := C10_bookkeeping_invariant L0 T0 st3 7
    (fun e => decide (e = 1)) false false false 7 eff0 (by decide)
  exact ⟨h.2.1, h.2.2.1, h.2.2.2.2.2⟩

/-! ## Claim C7 -/

/-- C7: an entity whose removal flag is set by the end of a frame's sweep
is purged only after the sweep (its `on_remove` hook is invoked via the
removal trace), disappears from the flat list and from every layer bucket,
and is dispatched neither update nor render on any following frame; and
the sweep over a list decomposes sequentially, so marks set at one
position only influence entities visited later, never updates already
dispatched. -/
theorem C7_deferred_removal (layerOf : Nat → ℚ) (effect : Nat → List Nat)
    (st : EngState) (e : Nat) (hinv : EngInv layerOf st)
    (he : e ∈ st.entities)
    (hm : (sweep effect st.entities st.marked).1 e = true) :
    e ∈ (engine_update effect st).removed ∧
    e ∉ (engine_update effect st).st.entities ∧
    (∀ k, e ∉ assocGet (engine_update effect st).st.display_layers k) ∧
    (∀ effs f,
      e ∉ (engine_update f (frames effs (engine_update effect st).st)).updated) ∧
    (∀ effs, e ∉ render_dispatch (frames effs (engine_update effect st).st)) ∧
    (∀ l2 m, sweep effect (st.entities ++ l2) m =
      ((sweep effect l2 (sweep effect st.entities m).1).1,
       (sweep effect st.entities m).2 ++
         (sweep effect l2 (sweep effect st.entities m).1).2)) := by
  obtain ⟨hs, hnd, hknd, hki, hik, hmem⟩ := hinv
  have h1 : e ∈ (engine_update effect st).removed := by
    rw [engine_update_removed]
    exact List.mem_filter.mpr ⟨he, hm⟩
  have h2 : e ∉ (engine_update effect st).st.entities := by
    rw [engine_update_entities]
    intro hc
    have hof := List.of_mem_filter hc
    simp [hm] at hof
  have h3 : ∀ k,
      e ∉ assocGet (engine_update effect st).st.display_layers k := by
    intro k
    rw [engine_update_layers]
    obtain ⟨hkeys, hget⟩ := filterBuckets_spec
      (fun x => (sweep effect st.entities st.marked).1 x)
      st.layer_indexes st.display_layers hnd hik
    rw [hget k]
    by_cases hk : k ∈ st.layer_indexes
    · rw [if_pos hk]
      intro hc
      have hof := List.of_mem_filter hc
      simp [hm] at hof
    · rw [if_neg hk]
      intro hc
      exact hk (hki _ (mem_map_fst_of_mem_assocGet _ _ _ hc))
  refine ⟨h1, h2, h3, ?_, ?_, fun l2 m => sweep_append effect st.entities l2 m⟩
  · intro effs f
    have habs := frames_preserves_absent effs _ e h2 h3
    rw [engine_update_updated]
    intro hc
    exact habs.1 (sweep_trace_subset f _ _ e hc)
  · intro effs
    have habs := frames_preserves_absent effs _ e h2 h3
    intro hc
    obtain ⟨k, hk⟩ := mem_render_dispatch _ e hc
    exact habs.2 k hk

/-- Witness for C7: in the three-entity state, entity 0's update marks
entity 1; entity 1 is purged after the sweep and absent from the next
frame's render dispatch. -/
theorem C7_deferred_removal_witness :
    1 ∈ (engine_update eff0 st3).removed ∧
    1 ∉ (engine_update eff0 st3).st.entities ∧
    1 ∉ render_dispatch (frames [] (engine_update eff0 st3).st) := by
  have h := C7_deferred_removal L0 eff0 st3 1 (by decide) (by decide)
    (by decide)
  exact ⟨h.1, h.2.1, h.2.2.2.2.1 []⟩

/-! ## Claim C3 -/

/-- C3 is contradicted by the code: `Engine.remove_if` accepts a `silent`
parameter but never reads it, invoking `on_remove` unconditionally.  On a
one-entity state with silent := true the hook trace is [0] — identical to
silent := false — although the docstring promises suppression; the entity
is still removed from the flat list and its bucket; and the wrappers
`remove_all` and `remove_tagged` forward `silent` into the same ignored
parameter, so their hooks also fire when silenced. -/
theorem C3_remove_if_ignores_silent :
    (remove_if (fun _ => true) true st1).2 = [0] ∧
    (remove_if (fun _ => true) true st1).2 =
      (remove_if (fun _ => true) false st1).2 ∧
    (remove_if (fun _ => true) true st1).1.entities = [] ∧
    assocGet (remove_if (fun _ => true) true st1).1.display_layers 0 = [] ∧
    (remove_all true st1).2 = [0] ∧
    (remove_tagged T0 7 true st3).2 = [1] := by
  decide
